import Mathlib

/-
Shallow embedding of the static-file handler in build.js (the Connect-style
staticProvider middleware of this repository), together with proofs checking
the natural-language specification against it.

Modelling conventions:
- JavaScript strings are Lean String values (the paths and headers involved are
  ASCII, where UTF-16 length and codepoint length agree).
- File bodies (Buffers) are Lean String values; Buffer.length is String length.
- A header bag built as a JS object literal is a List (String × String) in
  insertion order; property lookup is the first association with that key.
- request headers are a total function String → Option String; an absent
  header is none, and JS truthiness of a header value is "some non-empty".
- fs.stat is a function String → StatResult; an exception with code ENOENT is
  the enoent constructor, any other exception is fsError with its code string.
- the process-wide cache object is a function String → Option CacheEntry.
- external collaborators that are not part of this repository (node's url,
  querystring and path modules, the utils mime module, Date parsing) are
  modelled as small pure functions or Env parameters, following the spec's
  description of them as simple function calls.
-/

set_option maxHeartbeats 1000000

namespace SL

/-- File metadata as the handler uses it: stat.size, Number(stat.mtime) in
milliseconds, stat.mtime.toUTCString(), and stat.isDirectory(). -/
structure Stat where
  size : Nat
  mtimeMs : Nat
  mtimeUTC : String
  isDirectory : Bool
deriving DecidableEq

/-- Outcome of fs.stat(filename): a stat record, an error with code ENOENT
(swallowed by the resolution loop), or any other error code (rethrown). -/
inductive StatResult where
  | found (st : Stat)
  | enoent
  | fsError (code : String)
deriving DecidableEq

/-- An entry of the module-level _cache object: response headers and body. -/
structure CacheEntry where
  headers : List (String × String)
  body : String
deriving DecidableEq

/-- The module-level _cache object. -/
def Cache : Type := String → Option CacheEntry

deriving instance DecidableEq for Except

/-- A response written through res.writeHead / res.end. An empty body stands
for res.end() with no argument or with undefined. -/
structure Written where
  status : Nat
  headers : List (String × String)
  body : String
deriving DecidableEq

/-- What one invocation of the handler produces: the returned boolean (or the
code of a propagated exception), the response written if any, and the state of
the module-level cache afterwards. -/
structure Outcome where
  result : Except String Bool
  response : Option Written
  cache : Cache

/-- An HTTP request: method, url (the raw request target), and headers. -/
structure Request where
  method : String
  url : String
  headers : String → Option String

/-- The per-request opts argument of the handler. cachePfx models
opts.cachePrefix (none when the property is absent), transform models
opts.transform, nocache models opts.nocache. -/
structure ReqOpts where
  cachePfx : Option String
  transform : Option (String → String)
  nocache : Bool

/-- The configuration captured by the staticProvider closure after option
normalisation: roots, maxAge (milliseconds) and the cache flag. -/
structure Config where
  roots : List String
  maxAge : Nat
  cacheEnabled : Bool

/-- External collaborators of the handler: the filesystem, the mime module
(utils.mime.type and utils.mime.fromContent), JS Date parsing (none models an
invalid date, i.e. NaN getTime), and the toUTCString of new Date() taken when
the response headers are built. -/
structure Env where
  stat : String → StatResult
  readFile : String → String
  mimeType : String → String
  mimeFromContent : String → String → String
  parseDate : String → Option Int
  nowUTC : String

/-- JS truthiness of a possibly-absent string value: present and non-empty. -/
def strTruthy : Option String → Bool
  | some s => s ≠ ""
  | none => false

/-- String coercion JS applies to opts.cachePrefix when concatenating: a
missing property (undefined) coerces to the string undefined. -/
def jsStr : Option String → String
  | some s => s
  | none => "undefined"

/-- req.url.split with a question mark, first component: the url up to (not
including) the first question mark. -/
def stripQuery (s : String) : String :=
  String.mk (s.data.takeWhile (fun c => c ≠ '?'))

/-- Pathname component of an origin-form request target as parseUrl returns
it: everything before a fragment marker (the query was already stripped). -/
def hashStrip (s : String) : String :=
  String.mk (s.data.takeWhile (fun c => c ≠ '#'))

/-- Value of a hex digit, as percent-decoding reads it. -/
def hexVal (c : Char) : Option Nat :=
  if '0' ≤ c ∧ c ≤ '9' then some (c.toNat - '0'.toNat)
  else if 'a' ≤ c ∧ c ≤ 'f' then some (c.toNat - 'a'.toNat + 10)
  else if 'A' ≤ c ∧ c ≤ 'F' then some (c.toNat - 'A'.toNat + 10)
  else none

/-- Byte-wise percent-decoding as querystring.unescape performs it: a percent
sign followed by two hex digits becomes the char of that value, anything else
is copied unchanged. -/
def pctDecodeAux : List Char → List Char
  | [] => []
  | '%' :: a :: b :: rest =>
    (match hexVal a, hexVal b with
     | some x, some y => Char.ofNat (16 * x + y) :: pctDecodeAux rest
     | _, _ => '%' :: pctDecodeAux (a :: b :: rest))
  | c :: cs => c :: pctDecodeAux cs

/-- queryString.unescape applied to the url pathname. -/
def percentDecode (s : String) : String :=
  String.mk (pctDecodeAux s.data)

/-- Whether the first list is an initial run of the second. -/
def listStarts : List Char → List Char → Bool
  | [], _ => true
  | _ :: _, [] => false
  | a :: as, b :: bs => a == b && listStarts as bs

/-- Whether the pattern occurs contiguously anywhere in the list. -/
def listHasSub (pat : List Char) : List Char → Bool
  | [] => pat.isEmpty
  | c :: rest => listStarts pat (c :: rest) || listHasSub pat rest

/-- The traversal test of the handler: pathname.indexOf of two dots is not -1,
i.e. the decoded pathname contains two consecutive dots anywhere. -/
def containsDotDot (s : String) : Bool :=
  listHasSub ['.', '.'] s.data

/-- endsWith from build.js: str.substring(str.length - pattern.length)
compared with pattern (substring clamps a negative start at 0 as JS does). -/
def endsWithStr (s pat : String) : Bool :=
  s.data.drop (s.data.length - pat.data.length) == pat.data

/-- field.indexOf(pat) equal to 0: field starts with pat. -/
def startsWithStr (s pat : String) : Bool :=
  listStarts pat.data s.data

/-- filename.split on the path separator. -/
def splitOnSep : List Char → List (List Char)
  | [] => [[]]
  | c :: cs =>
    if c = '/' then [] :: splitOnSep cs
    else
      match splitOnSep cs with
      | h :: t => (c :: h) :: t
      | [] => [[c]]

/-- basename used for the content-disposition header: the last component of
filename.split(Path.sep). -/
def baseName (f : String) : String :=
  String.mk ((splitOnSep f.data).getLastD [])

/-- First association with the given key in a JS-object-as-list header bag. -/
def lookupHeader (hs : List (String × String)) (k : String) : Option String :=
  (hs.find? (fun kv => kv.1 == k)).map (fun kv => kv.2)

/-- Models Node Path.join(root, pathname) for this handler. The spec describes
the candidate as root + decodedPath, and request pathnames are origin-form
(they begin with a slash), where join is concatenation. -/
def pathJoin (root p : String) : String :=
  root ++ p

/-- etag from build.js: stat.size + a dash + Number(stat.mtime). -/
def etag (st : Stat) : String :=
  toString st.size ++ "-" ++ toString st.mtimeMs

/-- conditionalGET from build.js: the request has a truthy if-modified-since
or if-none-match header. -/
def conditionalGET (req : Request) : Bool :=
  strTruthy (req.headers "if-modified-since") || strTruthy (req.headers "if-none-match")

/-- modified from build.js, verbatim: note that it reads the capitalised keys
ETag and Last-Modified from the response header bag. -/
def modified (parseDate : String → Option Int) (req : Request)
    (headers : List (String × String)) : Bool :=
  let modifiedSince := req.headers "if-modified-since"
  let lastModified := lookupHeader headers "Last-Modified"
  let noneMatch := req.headers "if-none-match"
  let etagH := lookupHeader headers "ETag"
  if strTruthy noneMatch && strTruthy etagH && noneMatch == etagH then false
  else if strTruthy modifiedSince && strTruthy lastModified then
    match parseDate (modifiedSince.getD "") with
    | none => true
    | some ms =>
      match parseDate (lastModified.getD "") with
      | some lm => if lm ≤ ms then false else true
      | none => true
  else true

/-- notModified from build.js: the headers sent on a 304 are the response
headers with every field whose name starts with capitalised Content deleted. -/
def stripContentHeaders (hs : List (String × String)) : List (String × String) :=
  hs.filter (fun kv => !(startsWithStr kv.1 "Content"))

/-- forbidden from build.js: 403, text/plain, body Forbidden. -/
def forbiddenResponse : Written :=
  { status := 403
    headers := [("Content-Type", "text/plain"),
                ("Content-Length", toString ("Forbidden".length))]
    body := "Forbidden" }

/-- cacheKey from build.js: opts present gives opts.cachePrefix concatenated
(with JS string coercion of undefined) with the query-stripped url, otherwise
the query-stripped url itself. Also the key expression of clearCache. -/
def cacheKeyOf (opts : Option ReqOpts) (url : String) : String :=
  match opts with
  | some o => jsStr o.cachePfx ++ url
  | none => url

/-- The candidate filename tried for one root: Path.join(root, pathname),
with index.html appended when the last character is the path separator. -/
def candidateOf (root p : String) : String :=
  let filename := pathJoin root p
  if filename.data.getLastD ' ' = '/' then filename ++ "index.html" else filename

/-- The resolution loop of the handler: roots in order, stop at the first
stat; ENOENT continues with the next root, any other stat error propagates. -/
def resolve (stat : String → StatResult) : List String → String → Except String (Option (String × Stat))
  | [], _ => .ok none
  | r :: rest, p =>
    match stat (candidateOf r p) with
    | .found st => .ok (some (candidateOf r p, st))
    | .enoent => resolve stat rest p
    | .fsError c => .error c

/-- opts && opts.transform applied to the loaded data. -/
def applyTransform (opts : Option ReqOpts) (data : String) : String :=
  match opts with
  | some o =>
    match o.transform with
    | some f => f data
    | none => data
  | none => data

/-- opts && opts.nocache. -/
def noCacheOpt (opts : Option ReqOpts) : Bool :=
  match opts with
  | some o => o.nocache
  | none => false

/-- The body bytes served: the file content with the transform applied. -/
def freshData (env : Env) (opts : Option ReqOpts) (filename : String) : String :=
  applyTransform opts (env.readFile filename)

/-- Mime resolution: extension lookup, with content sniffing attempted when
the lookup yields the generic octet-stream type. -/
def mimeFor (env : Env) (filename : String) (data : String) : String :=
  let m := env.mimeType filename
  if m = "application/octet-stream" then env.mimeFromContent data m else m

/-- The response header object literal of the handler, in insertion order. -/
def buildHeaders (st : Stat) (mime : String) (dataLen : Nat) (nocache : Bool)
    (maxAge : Nat) (nowUTC : String) : List (String × String) :=
  [("content-type", mime),
   ("content-length", toString dataLen),
   ("last-modified", st.mtimeUTC),
   ("cache-control", if nocache then "no-cache, no-store, must-revalidate"
                     else "public, max-age=" ++ toString (maxAge / 1000)),
   ("etag", "\"" ++ etag st ++ "\""),
   ("expires", nowUTC)]

/-- The content-disposition append for executables: only when the filename
ends (exactly) with lowercase .exe or uppercase .EXE; note the value has an
opening quote and no closing quote, as in the source. -/
def withDisposition (filename : String) (hs : List (String × String)) : List (String × String) :=
  if endsWithStr filename ".EXE" || endsWithStr filename ".exe" then
    hs ++ [("content-disposition", "attachment; filename=\"" ++ baseName filename)]
  else hs

/-- All response headers for a freshly read file. -/
def freshHeaders (cfg : Config) (env : Env) (opts : Option ReqOpts)
    (filename : String) (st : Stat) : List (String × String) :=
  withDisposition filename
    (buildHeaders st (mimeFor env filename (freshData env opts filename))
      (freshData env opts filename).length (noCacheOpt opts) cfg.maxAge env.nowUTC)

/-- Functional update of the cache object. -/
def storeInsert (store : Cache) (k : String) (e : CacheEntry) : Cache :=
  fun j => if j = k then some e else store j

/-- The cache with no entries. -/
def emptyCache : Cache := fun _ => none

/-- The cache-hit test of the handler: caching enabled, the request is not a
conditional GET, and the cache has an entry for the key. -/
def cacheLookup (cfg : Config) (store : Cache) (req : Request) (k : String) : Option CacheEntry :=
  if cfg.cacheEnabled && !conditionalGET req then store k else none

/-- The decoded pathname the handler inspects: queryString.unescape of
parseUrl(req.url).pathname after the query string was dropped. -/
def requestPathname (req : Request) : String :=
  percentDecode (hashStrip (stripQuery req.url))

/-- The part of the handler after the cache check: resolve across roots,
decline on miss or directory, read, build headers, answer 304 or 200, and
write the entry back when caching is enabled. -/
def serveFresh (cfg : Config) (env : Env) (store : Cache) (req : Request)
    (opts : Option ReqOpts) (cacheKey pathname : String) : Outcome :=
  match resolve env.stat cfg.roots pathname with
  | .error c => ⟨.error c, none, store⟩
  | .ok none => ⟨.ok false, none, store⟩
  | .ok (some (filename, st)) =>
    if st.isDirectory then ⟨.ok false, none, store⟩
    else
      let data := freshData env opts filename
      let hs := freshHeaders cfg env opts filename st
      if modified env.parseDate req hs then
        ⟨.ok true, some ⟨200, hs, if req.method == "HEAD" then "" else data⟩,
         if cfg.cacheEnabled then storeInsert store cacheKey ⟨hs, data⟩ else store⟩
      else
        ⟨.ok true, some ⟨304, stripContentHeaders hs, ""⟩, store⟩

/-- The request handler returned by staticProvider, as a function from the
captured configuration, the external environment, the current cache object,
the request and the per-request opts to what the invocation produces. -/
def handle (cfg : Config) (env : Env) (store : Cache) (req : Request)
    (opts : Option ReqOpts) : Outcome :=
  if req.method != "GET" && req.method != "HEAD" then ⟨.ok false, none, store⟩
  else
    let cacheKey := cacheKeyOf opts (stripQuery req.url)
    if containsDotDot (requestPathname req) then
      ⟨.ok true, some forbiddenResponse, store⟩
    else
      match cacheLookup cfg store req cacheKey with
      | some hit =>
        ⟨.ok true, some ⟨200, hit.headers, if req.method == "HEAD" then "" else hit.body⟩, store⟩
      | none => serveFresh cfg env store req opts cacheKey (requestPathname req)

/-- clearCache from build.js: a truthy key deletes the entry at the computed
key (the same expression as the request cache key), a falsy key (absent, or
the empty string) replaces the whole store with a fresh empty object. -/
def clearCache (key : Option String) (opts : Option ReqOpts) (store : Cache) : Cache :=
  match key with
  | some k =>
    if k = "" then fun _ => none
    else fun j => if j = cacheKeyOf opts k then none else store j
  | none => fun _ => none

/-! Concrete fixtures: small filesystems, configurations and requests used to
instantiate the theorems below. -/

/-- A two-byte file /www/a.txt with mtime 5 ms. -/
def statA : Stat := ⟨2, 5, "Mon, 01 Jan 2024 00:00:00 GMT", false⟩

/-- Environment with the single file /www/a.txt containing hi. -/
def envA : Env :=
  { stat := fun f => if f = "/www/a.txt" then .found statA else .enoent
    readFile := fun f => if f = "/www/a.txt" then "hi" else ""
    mimeType := fun _ => "text/plain"
    mimeFromContent := fun _ fb => fb
    parseDate := fun _ => none
    nowUTC := "Thu, 01 Feb 2024 00:00:00 GMT" }

/-- Environment with an empty filesystem. -/
def envEmpty : Env :=
  { stat := fun _ => .enoent
    readFile := fun _ => ""
    mimeType := fun _ => "text/plain"
    mimeFromContent := fun _ fb => fb
    parseDate := fun _ => none
    nowUTC := "" }

/-- Single root /www, default maxAge, caching off. -/
def cfgA : Config := ⟨["/www"], 31557600000, false⟩

/-- Single root /www, caching on. -/
def cfgCache : Config := ⟨["/www"], 1000, true⟩

def reqPlain : Request := ⟨"GET", "/a.txt", fun _ => none⟩

/-- The same request carrying if-none-match equal to the etag the fresh
response for /www/a.txt computes. -/
def reqINM : Request :=
  ⟨"GET", "/a.txt", fun h => if h = "if-none-match" then some "\"2-5\"" else none⟩

def reqTrav : Request := ⟨"GET", "/../etc/passwd", fun _ => none⟩

def reqDots : Request := ⟨"GET", "/a..b.txt", fun _ => none⟩

def reqMissing : Request := ⟨"GET", "/missing.txt", fun _ => none⟩

def reqExe : Request := ⟨"GET", "/name.exe", fun _ => none⟩

def reqGone : Request := ⟨"GET", "/gone.txt", fun _ => none⟩

/-- A file /www/a..b.txt: two dots inside one filename component. -/
def statDots : Stat := ⟨3, 9, "Tue, 02 Jan 2024 00:00:00 GMT", false⟩

/-- Environment where /www/a..b.txt exists. -/
def envDots : Env :=
  { stat := fun f => if f = "/www/a..b.txt" then .found statDots else .enoent
    readFile := fun f => if f = "/www/a..b.txt" then "abc" else ""
    mimeType := fun _ => "text/plain"
    mimeFromContent := fun _ fb => fb
    parseDate := fun _ => none
    nowUTC := "Thu, 01 Feb 2024 00:00:00 GMT" }

def statExe : Stat := ⟨4, 7, "Wed, 03 Jan 2024 00:00:00 GMT", false⟩

/-- Environment with a binary /www/name.exe whose mime lookup falls back to
octet-stream. -/
def envExe : Env :=
  { stat := fun f => if f = "/www/name.exe" then .found statExe else .enoent
    readFile := fun f => if f = "/www/name.exe" then "MZMZ" else ""
    mimeType := fun _ => "application/octet-stream"
    mimeFromContent := fun _ fb => fb
    parseDate := fun _ => none
    nowUTC := "Thu, 01 Feb 2024 00:00:00 GMT" }

/-- Environment where stat on /www/a.txt fails with a non-ENOENT error. -/
def envErr : Env :=
  { stat := fun f => if f = "/www/a.txt" then .fsError "EACCES" else .enoent
    readFile := fun _ => ""
    mimeType := fun _ => "text/plain"
    mimeFromContent := fun _ fb => fb
    parseDate := fun _ => none
    nowUTC := "" }

/-- Environment for the two-root fixture: a.txt exists under both roots with
different stats and bodies. -/
def statB1 : Stat := ⟨3, 11, "Mon, 01 Jan 2024 00:00:00 GMT", false⟩

def statB2 : Stat := ⟨3, 12, "Mon, 08 Jan 2024 00:00:00 GMT", false⟩

def envB : Env :=
  { stat := fun f =>
      if f = "/www1/a.txt" then .found statB1
      else if f = "/www2/a.txt" then .found statB2
      else .enoent
    readFile := fun f =>
      if f = "/www1/a.txt" then "one" else if f = "/www2/a.txt" then "two" else ""
    mimeType := fun _ => "text/plain"
    mimeFromContent := fun _ fb => fb
    parseDate := fun _ => none
    nowUTC := "Thu, 01 Feb 2024 00:00:00 GMT" }

def cfgB : Config := ⟨["/www1", "/www2"], 31557600000, false⟩

/-- A stale cache entry. -/
def entryOld : CacheEntry := ⟨[("content-type", "text/plain")], "old"⟩

def storeOld : Cache := fun k => if k = "/a.txt" then some entryOld else none

def storeGone : Cache := fun k => if k = "/gone.txt" then some entryOld else none

def storeUndef : Cache := fun k => if k = "undefined/a.txt" then some entryOld else none

/-- A per-request opts object carrying no cachePrefix property. -/
def optsNoPfx : ReqOpts := ⟨none, none, false⟩

/-- A per-request opts object with cachePrefix p. -/
def optsP : ReqOpts := ⟨some "p", none, false⟩

/-! Helper lemmas about the list and string utilities. -/

theorem listStarts_self_append (l t : List Char) : listStarts l (l ++ t) = true := by
  induction l with
  | nil => rfl
  | cons a as ih => simp [listStarts, ih]

theorem listHasSub_of_middle (pat a b : List Char) :
    listHasSub pat (a ++ (pat ++ b)) = true := by
  induction a with
  | nil =>
    simp only [List.nil_append]
    cases pat with
    | nil =>
      cases b with
      | nil => rfl
      | cons y ys => simp [listHasSub, listStarts]
    | cons p ps =>
      have h1 : listStarts (p :: ps) (p :: (ps ++ b)) = true := by
        simpa using listStarts_self_append (p :: ps) b
      simp only [List.cons_append, listHasSub, List.append_eq]
      simp [h1]
  | cons x xs ih =>
    simp only [List.cons_append, listHasSub, List.append_eq]
    simp [ih]

theorem containsDotDot_decomp (pre post : String) :
    containsDotDot (pre ++ ".." ++ post) = true := by
  have h : (pre ++ ".." ++ post).data = pre.data ++ (['.', '.'] ++ post.data) := by
    simp [String.data_append]
  rw [containsDotDot, h]
  exact listHasSub_of_middle ['.', '.'] pre.data post.data

theorem lookupHeader_append_of_none (hs t : List (String × String)) (k : String)
    (h : lookupHeader hs k = none) :
    lookupHeader (hs ++ t) k = lookupHeader t k := by
  induction hs with
  | nil => rfl
  | cons kv rest ih =>
    simp only [lookupHeader, List.find?] at h ⊢
    cases hkv : (kv.1 == k) with
    | true => simp [hkv] at h
    | false =>
      simp only [hkv, List.cons_append, List.find?] at h ⊢
      exact ih h

theorem lookupHeader_append_of_some (hs t : List (String × String)) (k : String) (v : String)
    (h : lookupHeader hs k = some v) :
    lookupHeader (hs ++ t) k = some v := by
  induction hs with
  | nil => simp [lookupHeader] at h
  | cons kv rest ih =>
    simp only [lookupHeader, List.find?] at h ⊢
    cases hkv : (kv.1 == k) with
    | true => simpa [hkv] using h
    | false =>
      simp only [hkv, List.cons_append, List.find?] at h ⊢
      exact ih h

/-! Facts about the header bag the handler builds. -/

theorem lookupHeader_buildHeaders_ETag (st : Stat) (mime : String) (len : Nat)
    (nc : Bool) (ma : Nat) (now : String) :
    lookupHeader (buildHeaders st mime len nc ma now) "ETag" = none := by
  simp [lookupHeader, buildHeaders, List.find?]

theorem lookupHeader_buildHeaders_LastModified (st : Stat) (mime : String) (len : Nat)
    (nc : Bool) (ma : Nat) (now : String) :
    lookupHeader (buildHeaders st mime len nc ma now) "Last-Modified" = none := by
  simp [lookupHeader, buildHeaders, List.find?]

theorem lookupHeader_buildHeaders_etag (st : Stat) (mime : String) (len : Nat)
    (nc : Bool) (ma : Nat) (now : String) :
    lookupHeader (buildHeaders st mime len nc ma now) "etag" = some ("\"" ++ etag st ++ "\"") := by
  simp [lookupHeader, buildHeaders, List.find?]

theorem lookupHeader_buildHeaders_cacheControl (st : Stat) (mime : String) (len : Nat)
    (nc : Bool) (ma : Nat) (now : String) :
    lookupHeader (buildHeaders st mime len nc ma now) "cache-control" =
      some (if nc then "no-cache, no-store, must-revalidate"
            else "public, max-age=" ++ toString (ma / 1000)) := by
  simp [lookupHeader, buildHeaders, List.find?]

theorem lookupHeader_withDisposition_of_none (f : String) (hs : List (String × String))
    (k : String) (h : lookupHeader hs k = none) (hk : ("content-disposition" == k) = false) :
    lookupHeader (withDisposition f hs) k = none := by
  rw [withDisposition]
  split
  · rw [lookupHeader_append_of_none _ _ _ h]
    simp [lookupHeader, List.find?, hk]
  · exact h

theorem lookupHeader_withDisposition_of_some (f : String) (hs : List (String × String))
    (k v : String) (h : lookupHeader hs k = some v) :
    lookupHeader (withDisposition f hs) k = some v := by
  rw [withDisposition]
  split
  · exact lookupHeader_append_of_some _ _ _ _ h
  · exact h

/-- Core of the conditional-GET defect: modified reads the capitalised keys
ETag and Last-Modified, so against any header bag lacking those exact keys it
returns true no matter what conditional headers the request carries. -/
theorem modified_eq_true_of_no_capitalised (pd : String → Option Int) (req : Request)
    (hs : List (String × String)) (h1 : lookupHeader hs "ETag" = none)
    (h2 : lookupHeader hs "Last-Modified" = none) :
    modified pd req hs = true := by
  rw [modified]
  simp only [h1, h2, strTruthy]
  simp

theorem lookupHeader_freshHeaders_ETag (cfg : Config) (env : Env) (opts : Option ReqOpts)
    (f : String) (st : Stat) :
    lookupHeader (freshHeaders cfg env opts f st) "ETag" = none := by
  rw [freshHeaders]
  exact lookupHeader_withDisposition_of_none _ _ _ (lookupHeader_buildHeaders_ETag _ _ _ _ _ _) (by decide)

theorem lookupHeader_freshHeaders_LastModified (cfg : Config) (env : Env) (opts : Option ReqOpts)
    (f : String) (st : Stat) :
    lookupHeader (freshHeaders cfg env opts f st) "Last-Modified" = none := by
  rw [freshHeaders]
  exact lookupHeader_withDisposition_of_none _ _ _
    (lookupHeader_buildHeaders_LastModified _ _ _ _ _ _) (by decide)

/-- Every fresh response header bag makes modified return true: the 304 path
of the handler is unreachable. -/
theorem modified_freshHeaders (pd : String → Option Int) (req : Request) (cfg : Config)
    (env : Env) (opts : Option ReqOpts) (f : String) (st : Stat) :
    modified pd req (freshHeaders cfg env opts f st) = true :=
  modified_eq_true_of_no_capitalised pd req _
    (lookupHeader_freshHeaders_ETag cfg env opts f st)
    (lookupHeader_freshHeaders_LastModified cfg env opts f st)

/-! Branch equations for serveFresh and handle. -/

theorem serveFresh_error (cfg : Config) (env : Env) (store : Cache) (req : Request)
    (opts : Option ReqOpts) (ck p c : String)
    (h : resolve env.stat cfg.roots p = .error c) :
    serveFresh cfg env store req opts ck p = ⟨.error c, none, store⟩ := by
  rw [serveFresh, h]

theorem serveFresh_notFound (cfg : Config) (env : Env) (store : Cache) (req : Request)
    (opts : Option ReqOpts) (ck p : String)
    (h : resolve env.stat cfg.roots p = .ok none) :
    serveFresh cfg env store req opts ck p = ⟨.ok false, none, store⟩ := by
  rw [serveFresh, h]

theorem serveFresh_directory (cfg : Config) (env : Env) (store : Cache) (req : Request)
    (opts : Option ReqOpts) (ck p f : String) (st : Stat)
    (h : resolve env.stat cfg.roots p = .ok (some (f, st)))
    (hd : st.isDirectory = true) :
    serveFresh cfg env store req opts ck p = ⟨.ok false, none, store⟩ := by
  rw [serveFresh, h]
  simp [hd]

/-- Resolution success on a non-directory always produces the 200 response
(the 304 branch cannot fire, by modified_freshHeaders). -/
theorem serveFresh_file (cfg : Config) (env : Env) (store : Cache) (req : Request)
    (opts : Option ReqOpts) (ck p f : String) (st : Stat)
    (h : resolve env.stat cfg.roots p = .ok (some (f, st)))
    (hd : st.isDirectory = false) :
    serveFresh cfg env store req opts ck p =
      ⟨.ok true,
       some ⟨200, freshHeaders cfg env opts f st,
             if req.method == "HEAD" then "" else freshData env opts f⟩,
       if cfg.cacheEnabled then
         storeInsert store ck ⟨freshHeaders cfg env opts f st, freshData env opts f⟩
       else store⟩ := by
  rw [serveFresh, h]
  simp [hd, modified_freshHeaders]

theorem handle_bad_method (cfg : Config) (env : Env) (store : Cache) (req : Request)
    (opts : Option ReqOpts) (h : (req.method != "GET" && req.method != "HEAD") = true) :
    handle cfg env store req opts = ⟨.ok false, none, store⟩ := by
  rw [handle]
  simp [h]

theorem handle_forbidden (cfg : Config) (env : Env) (store : Cache) (req : Request)
    (opts : Option ReqOpts) (hm : (req.method != "GET" && req.method != "HEAD") = false)
    (hp : containsDotDot (requestPathname req) = true) :
    handle cfg env store req opts = ⟨.ok true, some forbiddenResponse, store⟩ := by
  rw [handle]
  simp [hm, hp]

theorem handle_cacheHit (cfg : Config) (env : Env) (store : Cache) (req : Request)
    (opts : Option ReqOpts) (hit : CacheEntry)
    (hm : (req.method != "GET" && req.method != "HEAD") = false)
    (hp : containsDotDot (requestPathname req) = false)
    (hc : cacheLookup cfg store req (cacheKeyOf opts (stripQuery req.url)) = some hit) :
    handle cfg env store req opts =
      ⟨.ok true, some ⟨200, hit.headers, if req.method == "HEAD" then "" else hit.body⟩, store⟩ := by
  rw [handle]
  simp [hm, hp, hc]

theorem handle_cacheMiss (cfg : Config) (env : Env) (store : Cache) (req : Request)
    (opts : Option ReqOpts)
    (hm : (req.method != "GET" && req.method != "HEAD") = false)
    (hp : containsDotDot (requestPathname req) = false)
    (hc : cacheLookup cfg store req (cacheKeyOf opts (stripQuery req.url)) = none) :
    handle cfg env store req opts =
      serveFresh cfg env store req opts (cacheKeyOf opts (stripQuery req.url)) (requestPathname req) := by
  rw [handle]
  simp [hm, hp, hc]

/-! Locality of the handler in the cache object: the response and returned
value depend on the store only through the entry at the request's cache key,
and the store is written only at that key. -/

theorem cacheLookup_of_conditional (cfg : Config) (store : Cache) (req : Request) (k : String)
    (h : conditionalGET req = true) : cacheLookup cfg store req k = none := by
  simp [cacheLookup, h]

theorem serveFresh_store_indep (cfg : Config) (env : Env) (req : Request)
    (opts : Option ReqOpts) (ck p : String) (s₁ s₂ : Cache) :
    (serveFresh cfg env s₁ req opts ck p).response = (serveFresh cfg env s₂ req opts ck p).response ∧
    (serveFresh cfg env s₁ req opts ck p).result = (serveFresh cfg env s₂ req opts ck p).result := by
  cases h : resolve env.stat cfg.roots p with
  | error c =>
    rw [serveFresh_error _ _ _ _ _ _ _ _ h, serveFresh_error _ _ _ _ _ _ _ _ h]
    exact ⟨rfl, rfl⟩
  | ok o =>
    cases o with
    | none =>
      rw [serveFresh_notFound _ _ _ _ _ _ _ h, serveFresh_notFound _ _ _ _ _ _ _ h]
      exact ⟨rfl, rfl⟩
    | some pr =>
      obtain ⟨f, st⟩ := pr
      cases hd : st.isDirectory with
      | true =>
        rw [serveFresh_directory _ _ _ _ _ _ _ _ _ h hd, serveFresh_directory _ _ _ _ _ _ _ _ _ h hd]
        exact ⟨rfl, rfl⟩
      | false =>
        rw [serveFresh_file _ _ _ _ _ _ _ _ _ h hd, serveFresh_file _ _ _ _ _ _ _ _ _ h hd]
        exact ⟨rfl, rfl⟩

theorem handle_store_local (cfg : Config) (env : Env) (req : Request) (opts : Option ReqOpts)
    (s₁ s₂ : Cache)
    (h : s₁ (cacheKeyOf opts (stripQuery req.url)) = s₂ (cacheKeyOf opts (stripQuery req.url))) :
    (handle cfg env s₁ req opts).response = (handle cfg env s₂ req opts).response ∧
    (handle cfg env s₁ req opts).result = (handle cfg env s₂ req opts).result := by
  cases hm : (req.method != "GET" && req.method != "HEAD") with
  | true =>
    rw [handle_bad_method _ _ _ _ _ hm, handle_bad_method _ _ _ _ _ hm]
    exact ⟨rfl, rfl⟩
  | false =>
    cases hp : containsDotDot (requestPathname req) with
    | true =>
      rw [handle_forbidden _ _ _ _ _ hm hp, handle_forbidden _ _ _ _ _ hm hp]
      exact ⟨rfl, rfl⟩
    | false =>
      have hcl : cacheLookup cfg s₁ req (cacheKeyOf opts (stripQuery req.url)) =
          cacheLookup cfg s₂ req (cacheKeyOf opts (stripQuery req.url)) := by
        rw [cacheLookup, cacheLookup, h]
      cases hc : cacheLookup cfg s₂ req (cacheKeyOf opts (stripQuery req.url)) with
      | some hit =>
        rw [handle_cacheHit _ _ _ _ _ _ hm hp (hcl.trans hc), handle_cacheHit _ _ _ _ _ _ hm hp hc]
        exact ⟨rfl, rfl⟩
      | none =>
        rw [handle_cacheMiss _ _ _ _ _ hm hp (hcl.trans hc), handle_cacheMiss _ _ _ _ _ hm hp hc]
        exact serveFresh_store_indep _ _ _ _ _ _ _ _

theorem serveFresh_cache_frame (cfg : Config) (env : Env) (store : Cache) (req : Request)
    (opts : Option ReqOpts) (ck p : String) (j : String) (hj : j ≠ ck) :
    (serveFresh cfg env store req opts ck p).cache j = store j := by
  cases h : resolve env.stat cfg.roots p with
  | error c => rw [serveFresh_error _ _ _ _ _ _ _ _ h]
  | ok o =>
    cases o with
    | none => rw [serveFresh_notFound _ _ _ _ _ _ _ h]
    | some pr =>
      obtain ⟨f, st⟩ := pr
      cases hd : st.isDirectory with
      | true => rw [serveFresh_directory _ _ _ _ _ _ _ _ _ h hd]
      | false =>
        rw [serveFresh_file _ _ _ _ _ _ _ _ _ h hd]
        cases cfg.cacheEnabled <;> simp [storeInsert, hj]

theorem handle_cache_frame (cfg : Config) (env : Env) (store : Cache) (req : Request)
    (opts : Option ReqOpts) (j : String) (hj : j ≠ cacheKeyOf opts (stripQuery req.url)) :
    (handle cfg env store req opts).cache j = store j := by
  cases hm : (req.method != "GET" && req.method != "HEAD") with
  | true => rw [handle_bad_method _ _ _ _ _ hm]
  | false =>
    cases hp : containsDotDot (requestPathname req) with
    | true => rw [handle_forbidden _ _ _ _ _ hm hp]
    | false =>
      cases hc : cacheLookup cfg store req (cacheKeyOf opts (stripQuery req.url)) with
      | some hit => rw [handle_cacheHit _ _ _ _ _ _ hm hp hc]
      | none =>
        rw [handle_cacheMiss _ _ _ _ _ hm hp hc]
        exact serveFresh_cache_frame _ _ _ _ _ _ _ _ hj

/-- Turns a GET-or-HEAD hypothesis into the Bool condition the handler tests. -/
theorem method_cond_false (req : Request) (hm : req.method = "GET" ∨ req.method = "HEAD") :
    (req.method != "GET" && req.method != "HEAD") = false := by
  cases hm with
  | inl h => simp [h]
  | inr h => simp [h]

/-! The claims. -/

/-- C1: the claim says a request whose if-none-match equals the computed etag
is answered 304 with the content headers stripped and an empty body. The code
cannot produce that: the first request for /www/a.txt is answered 200 with
etag header the quoted 2-5, and the second request carrying exactly that
value in if-none-match is again answered 200 with the full two-byte body,
because modified reads the capitalised keys ETag and Last-Modified from a
header bag whose keys are all lowercase. -/
theorem C1_conditional_get_broken :
    (handle cfgA envA emptyCache reqPlain none).response.map
        (fun w => lookupHeader w.headers "etag") = some (some "\"2-5\"") ∧
    reqINM.headers "if-none-match" = some "\"2-5\"" ∧
    (handle cfgA envA emptyCache reqINM none).response.map (fun w => (w.status, w.body)) =
      some (200, "hi") := by
  refine ⟨?_, ?_, ?_⟩ <;> decide

/-- C2: a GET or HEAD request whose percent-decoded pathname contains a
parent-directory segment (a dot-dot component: the surrounding text is empty
or separator-bounded) is answered 403 Forbidden with a text/plain Forbidden
body, the handler returns true, and the outcome is the same for every
environment, every cache store and every root configuration: no cache lookup
and no filesystem access can influence it, and the cache is unchanged. -/
theorem C2_parent_segment_forbidden (cfg : Config) (env : Env) (store : Cache)
    (req : Request) (opts : Option ReqOpts) (pre post : String)
    (hm : req.method = "GET" ∨ req.method = "HEAD")
    (hpath : requestPathname req = pre ++ ".." ++ post)
    (_hseg1 : pre = "" ∨ endsWithStr pre "/" = true)
    (_hseg2 : post = "" ∨ startsWithStr post "/" = true) :
    handle cfg env store req opts = ⟨.ok true, some forbiddenResponse, store⟩ ∧
    forbiddenResponse.status = 403 ∧
    forbiddenResponse.body = "Forbidden" ∧
    lookupHeader forbiddenResponse.headers "Content-Type" = some "text/plain" := by
  have hp : containsDotDot (requestPathname req) = true := by
    rw [hpath]; exact containsDotDot_decomp pre post
  exact ⟨handle_forbidden cfg env store req opts (method_cond_false req hm) hp, rfl, rfl, rfl⟩

/-- Witness for C2: GET /../etc/passwd is answered 403 Forbidden. -/
theorem C2_parent_segment_forbidden_witness :
    requestPathname reqTrav = "/" ++ ".." ++ "/etc/passwd" ∧
    handle cfgA envA emptyCache reqTrav none = ⟨.ok true, some forbiddenResponse, emptyCache⟩ :=
  ⟨by decide,
   (C2_parent_segment_forbidden cfgA envA emptyCache reqTrav none "/" "/etc/passwd"
     (Or.inl rfl) (by decide) (Or.inr (by decide)) (Or.inr (by decide))).1⟩

/-- C10: the traversal check is a plain substring test, so a GET or HEAD
request whose decoded pathname contains two consecutive dots anywhere - with
no parent-directory segment required - is also answered 403 Forbidden with
the handler returning true, for every environment (in particular one where
the file exists under a root), cache store and configuration. -/
theorem C10_dotdot_substring_forbidden (cfg : Config) (env : Env) (store : Cache)
    (req : Request) (opts : Option ReqOpts) (pre post : String)
    (hm : req.method = "GET" ∨ req.method = "HEAD")
    (hpath : requestPathname req = pre ++ ".." ++ post) :
    handle cfg env store req opts = ⟨.ok true, some forbiddenResponse, store⟩ := by
  have hp : containsDotDot (requestPathname req) = true := by
    rw [hpath]; exact containsDotDot_decomp pre post
  exact handle_forbidden cfg env store req opts (method_cond_false req hm) hp

/-- Witness for C10: /a..b.txt has no parent-directory segment, the file
exists under the root /www, and the request is still answered 403. -/
theorem C10_dotdot_substring_forbidden_witness :
    requestPathname reqDots = "/a" ++ ".." ++ "b.txt" ∧
    envDots.stat (candidateOf "/www" "/a..b.txt") = .found statDots ∧
    handle cfgA envDots emptyCache reqDots none = ⟨.ok true, some forbiddenResponse, emptyCache⟩ :=
  ⟨by decide, by decide,
   C10_dotdot_substring_forbidden cfgA envDots emptyCache reqDots none "/a" "b.txt"
     (Or.inl rfl) (by decide)⟩

/-- C3: multi-root resolution. An empty root list resolves to nothing; a stat
hit on the first root's candidate ends resolution there whatever the later
roots hold (so the earlier root wins); ENOENT moves on to the next root; any
other stat error code is propagated, both by the loop and - through the
handler - to the caller; and the candidate for a root is the joined path,
with index.html appended exactly when its last character is the separator. -/
theorem C3_multi_root_resolution (stat : String → StatResult) (r : String)
    (rest : List String) (p c : String) (st : Stat) (cfg : Config) (env : Env)
    (store : Cache) (req : Request) (opts : Option ReqOpts) :
    (resolve stat [] p = .ok none) ∧
    (stat (candidateOf r p) = .found st →
      resolve stat (r :: rest) p = .ok (some (candidateOf r p, st))) ∧
    (stat (candidateOf r p) = .enoent → resolve stat (r :: rest) p = resolve stat rest p) ∧
    (stat (candidateOf r p) = .fsError c → resolve stat (r :: rest) p = .error c) ∧
    ((pathJoin r p).data.getLastD ' ' = '/' → candidateOf r p = pathJoin r p ++ "index.html") ∧
    ((pathJoin r p).data.getLastD ' ' ≠ '/' → candidateOf r p = pathJoin r p) ∧
    (req.method = "GET" ∨ req.method = "HEAD" →
      containsDotDot (requestPathname req) = false →
      cacheLookup cfg store req (cacheKeyOf opts (stripQuery req.url)) = none →
      resolve env.stat cfg.roots (requestPathname req) = .error c →
      (handle cfg env store req opts).result = .error c) := by
  refine ⟨rfl, ?_, ?_, ?_, ?_, ?_, ?_⟩
  · intro h; simp [resolve, h]
  · intro h; simp [resolve, h]
  · intro h; simp [resolve, h]
  · intro h
    simp only [candidateOf]
    exact if_pos h
  · intro h
    simp only [candidateOf]
    exact if_neg h
  · intro hm hp hc hres
    rw [handle_cacheMiss _ _ _ _ _ (method_cond_false req hm) hp hc,
      serveFresh_error _ _ _ _ _ _ _ _ hres]

/-- Witness for C3, on envB where /a.txt exists under both /www1 and /www2:
resolution over both roots picks /www1/a.txt (the earlier root), an ENOENT
root passes through, the trailing-separator candidate gets index.html, and a
stat error EACCES propagates out of the handler. -/
theorem C3_multi_root_resolution_witness :
    envB.stat (candidateOf "/www1" "/a.txt") = .found statB1 ∧
    resolve envB.stat ["/www1", "/www2"] "/a.txt" = .ok (some (candidateOf "/www1" "/a.txt", statB1)) ∧
    envB.stat (candidateOf "/www0" "/a.txt") = .enoent ∧
    resolve envB.stat ["/www0", "/www1"] "/a.txt" = resolve envB.stat ["/www1"] "/a.txt" ∧
    envErr.stat (candidateOf "/www" "/a.txt") = .fsError "EACCES" ∧
    resolve envErr.stat ["/www"] "/a.txt" = .error "EACCES" ∧
    candidateOf "/www" "/dir/" = pathJoin "/www" "/dir/" ++ "index.html" ∧
    candidateOf "/www" "/a.txt" = pathJoin "/www" "/a.txt" ∧
    (handle ⟨["/www"], 1000, false⟩ envErr emptyCache reqPlain none).result = .error "EACCES" := by
  have h1 := C3_multi_root_resolution envB.stat "/www1" ["/www2"] "/a.txt" "x" statB1
    cfgA envA emptyCache reqPlain none
  have h2 := C3_multi_root_resolution envB.stat "/www0" ["/www1"] "/a.txt" "x" statB1
    cfgA envA emptyCache reqPlain none
  have h3 := C3_multi_root_resolution envErr.stat "/www" [] "/a.txt" "EACCES" statB1
    ⟨["/www"], 1000, false⟩ envErr emptyCache reqPlain none
  have h4 := C3_multi_root_resolution envA.stat "/www" [] "/dir/" "x" statB1
    cfgA envA emptyCache reqPlain none
  refine ⟨by decide, h1.2.1 (by decide), by decide, h2.2.2.1 (by decide), by decide,
    h3.2.2.2.1 (by decide), h4.2.2.2.2.1 (by decide), h3.2.2.2.2.2.1 (by decide), ?_⟩
  exact h3.2.2.2.2.2.2 (Or.inl rfl) (by decide) (by decide) (by decide)

/-- C7: with caching enabled, a non-conditional GET or HEAD request with a
clean pathname whose key has a cache entry is answered 200 with the stored
headers and the stored body (empty for HEAD), the cache is unchanged, and the
outcome is literally independent of the environment: no filesystem access
takes place. And when a request carries a truthy conditional header the
stored entry is bypassed: the response and the returned value are the same as
with an empty cache, i.e. recomputed from the filesystem. -/
theorem C7_cache_hit_shortcircuit (cfg : Config) (env : Env) (store : Cache)
    (req req2 : Request) (opts : Option ReqOpts) (hit : CacheEntry)
    (hce : cfg.cacheEnabled = true)
    (hm : req.method = "GET" ∨ req.method = "HEAD")
    (hcond : conditionalGET req = false)
    (hp : containsDotDot (requestPathname req) = false)
    (hhit : store (cacheKeyOf opts (stripQuery req.url)) = some hit) :
    handle cfg env store req opts =
      ⟨.ok true, some ⟨200, hit.headers, if req.method == "HEAD" then "" else hit.body⟩, store⟩ ∧
    (conditionalGET req2 = true →
      (handle cfg env store req2 opts).response = (handle cfg env emptyCache req2 opts).response ∧
      (handle cfg env store req2 opts).result = (handle cfg env emptyCache req2 opts).result) := by
  constructor
  · have hl : cacheLookup cfg store req (cacheKeyOf opts (stripQuery req.url)) = some hit := by
      rw [cacheLookup, hce, hcond]
      simpa using hhit
    exact handle_cacheHit cfg env store req opts hit (method_cond_false req hm) hp hl
  · intro hcond2
    have h0 : store (cacheKeyOf opts (stripQuery req2.url)) = some hit ∨ True := Or.inr trivial
    cases hm2 : (req2.method != "GET" && req2.method != "HEAD") with
    | true =>
      rw [handle_bad_method _ _ _ _ _ hm2, handle_bad_method _ _ _ _ _ hm2]
      exact ⟨rfl, rfl⟩
    | false =>
      cases hp2 : containsDotDot (requestPathname req2) with
      | true =>
        rw [handle_forbidden _ _ _ _ _ hm2 hp2, handle_forbidden _ _ _ _ _ hm2 hp2]
        exact ⟨rfl, rfl⟩
      | false =>
        rw [handle_cacheMiss _ _ _ _ _ hm2 hp2 (cacheLookup_of_conditional _ _ _ _ hcond2),
          handle_cacheMiss _ _ _ _ _ hm2 hp2 (cacheLookup_of_conditional _ _ _ _ hcond2)]
        exact serveFresh_store_indep _ _ _ _ _ _ _ _

/-- Witness for C7: the stored entry for /a.txt answers a plain GET against
an empty filesystem, and the conditional request is answered the same with
and without the stored entry. -/
theorem C7_cache_hit_shortcircuit_witness :
    cfgCache.cacheEnabled = true ∧
    conditionalGET reqPlain = false ∧
    conditionalGET reqINM = true ∧
    storeOld (cacheKeyOf none (stripQuery reqPlain.url)) = some entryOld ∧
    handle cfgCache envEmpty storeOld reqPlain none =
      ⟨.ok true, some ⟨200, entryOld.headers,
        if reqPlain.method == "HEAD" then "" else entryOld.body⟩, storeOld⟩ ∧
    (handle cfgCache envEmpty storeOld reqINM none).response =
      (handle cfgCache envEmpty emptyCache reqINM none).response := by
  have h := C7_cache_hit_shortcircuit cfgCache envEmpty storeOld reqPlain reqINM none entryOld
    rfl (Or.inl rfl) (by decide) (by decide) (by decide)
  exact ⟨rfl, by decide, by decide, by decide, h.1, (h.2 (by decide)).1⟩

/-- C8: every 200 response built from the filesystem (resolution succeeded on
a non-directory and the cache did not answer) carries the headers of
freshHeaders, whose etag is the quoted size-mtime string computed by etag
from the file's stat, and whose cache-control is the no-store string when
opts.nocache is set and the public max-age string otherwise. -/
theorem C8_fresh_response_headers (cfg : Config) (env : Env) (store : Cache)
    (req : Request) (opts : Option ReqOpts) (f : String) (st : Stat)
    (hm : req.method = "GET" ∨ req.method = "HEAD")
    (hp : containsDotDot (requestPathname req) = false)
    (hc : cacheLookup cfg store req (cacheKeyOf opts (stripQuery req.url)) = none)
    (hres : resolve env.stat cfg.roots (requestPathname req) = .ok (some (f, st)))
    (hd : st.isDirectory = false) :
    (handle cfg env store req opts).response =
      some ⟨200, freshHeaders cfg env opts f st,
            if req.method == "HEAD" then "" else freshData env opts f⟩ ∧
    etag st = toString st.size ++ "-" ++ toString st.mtimeMs ∧
    lookupHeader (freshHeaders cfg env opts f st) "etag" = some ("\"" ++ etag st ++ "\"") ∧
    lookupHeader (freshHeaders cfg env opts f st) "cache-control" =
      some (if noCacheOpt opts then "no-cache, no-store, must-revalidate"
            else "public, max-age=" ++ toString (cfg.maxAge / 1000)) := by
  refine ⟨?_, rfl, ?_, ?_⟩
  · rw [handle_cacheMiss _ _ _ _ _ (method_cond_false req hm) hp hc,
      serveFresh_file _ _ _ _ _ _ _ _ _ hres hd]
  · rw [freshHeaders]
    exact lookupHeader_withDisposition_of_some _ _ _ _
      (lookupHeader_buildHeaders_etag _ _ _ _ _ _)
  · rw [freshHeaders]
    exact lookupHeader_withDisposition_of_some _ _ _ _
      (lookupHeader_buildHeaders_cacheControl _ _ _ _ _ _)

/-- Witness for C8: the fresh 200 for /www/a.txt has etag the quoted 2-5 and
the public max-age cache-control derived from the configured maxAge. -/
theorem C8_fresh_response_headers_witness :
    resolve envA.stat cfgA.roots (requestPathname reqPlain) = .ok (some ("/www/a.txt", statA)) ∧
    statA.isDirectory = false ∧
    (handle cfgA envA emptyCache reqPlain none).response =
      some ⟨200, freshHeaders cfgA envA none "/www/a.txt" statA,
            if reqPlain.method == "HEAD" then "" else freshData envA none "/www/a.txt"⟩ ∧
    lookupHeader (freshHeaders cfgA envA none "/www/a.txt" statA) "etag" =
      some ("\"" ++ etag statA ++ "\"") ∧
    lookupHeader (freshHeaders cfgA envA none "/www/a.txt" statA) "cache-control" =
      some (if noCacheOpt none then "no-cache, no-store, must-revalidate"
            else "public, max-age=" ++ toString (cfgA.maxAge / 1000)) := by
  have h := C8_fresh_response_headers cfgA envA emptyCache reqPlain none "/www/a.txt" statA
    (Or.inl rfl) (by decide) (by decide) (by decide) (by decide)
  exact ⟨by decide, rfl, h.1, h.2.2.1, h.2.2.2⟩

theorem lookupHeader_buildHeaders_contentDisposition (st : Stat) (mime : String) (len : Nat)
    (nc : Bool) (ma : Nat) (now : String) :
    lookupHeader (buildHeaders st mime len nc ma now) "content-disposition" = none := by
  simp [lookupHeader, buildHeaders, List.find?]

/-- What withDisposition contributes to the header bag: present exactly when
the filename ends with lowercase .exe or uppercase .EXE, with the unclosed
quoted value from the source. -/
theorem lookupHeader_withDisposition_cd (f : String) (hs : List (String × String))
    (h : lookupHeader hs "content-disposition" = none) :
    lookupHeader (withDisposition f hs) "content-disposition" =
      (if endsWithStr f ".EXE" || endsWithStr f ".exe" then
        some ("attachment; filename=\"" ++ baseName f)
      else none) := by
  cases hcond : (endsWithStr f ".EXE" || endsWithStr f ".exe") with
  | true =>
    simp only [withDisposition, hcond, if_true]
    rw [lookupHeader_append_of_none _ _ _ h]
    simp [lookupHeader, List.find?]
  | false =>
    simp only [withDisposition, hcond, if_false]
    simp [h]

/-- C4 counterexample: the options object exists but carries no cachePrefix.
The claim predicts cache key /a.txt, hence a hit on the stored entry with
body old; the code computes undefined/a.txt (JS string coercion of
undefined), misses, serves hi from the filesystem and writes the entry back
under undefined/a.txt. -/
theorem C4_cache_key_counterexample :
    cacheKeyOf (some optsNoPfx) "/a.txt" = "undefined/a.txt" ∧
    cacheKeyOf (some optsNoPfx) "/a.txt" ≠ "/a.txt" ∧
    storeOld "/a.txt" = some entryOld ∧
    (handle cfgCache envA storeOld reqPlain (some optsNoPfx)).response.map
        (fun w => w.body) = some "hi" ∧
    (handle cfgCache envA storeOld reqPlain (some optsNoPfx)).cache "undefined/a.txt" ≠ none := by
  refine ⟨by decide, by decide, by decide, by decide, by decide⟩

/-- C4 as amended: the cache key is the query-stripped request path when no
per-request options object is supplied and String(options.cachePrefix)
prepended to it when one is (so a string prefix is prepended as such); the
handler writes the cache only at that key, and its response depends on the
store only through the entry at that key. -/
theorem C4_cache_key_amended (url : String) (o : ReqOpts) (p : String) (cfg : Config)
    (env : Env) (store s₂ : Cache) (req : Request) (opts : Option ReqOpts) (j : String)
    (hpfx : o.cachePfx = some p)
    (hj : j ≠ cacheKeyOf opts (stripQuery req.url))
    (hs : s₂ (cacheKeyOf opts (stripQuery req.url)) = store (cacheKeyOf opts (stripQuery req.url))) :
    cacheKeyOf none url = url ∧
    cacheKeyOf (some o) url = jsStr o.cachePfx ++ url ∧
    cacheKeyOf (some o) url = p ++ url ∧
    (handle cfg env store req opts).cache j = store j ∧
    (handle cfg env store req opts).response = (handle cfg env s₂ req opts).response := by
  refine ⟨rfl, rfl, ?_, handle_cache_frame cfg env store req opts j hj, ?_⟩
  · simp [cacheKeyOf, jsStr, hpfx]
  · exact (handle_store_local cfg env req opts store s₂ hs.symm).1

/-- Witness for C4 as amended at the prefix p and the url /a.txt. -/
theorem C4_cache_key_amended_witness :
    cacheKeyOf none "/a.txt" = "/a.txt" ∧
    cacheKeyOf (some optsP) "/a.txt" = jsStr optsP.cachePfx ++ "/a.txt" ∧
    cacheKeyOf (some optsP) "/a.txt" = "p" ++ "/a.txt" ∧
    (handle cfgA envA emptyCache reqPlain none).cache "/other" = emptyCache "/other" ∧
    (handle cfgA envA emptyCache reqPlain none).response =
      (handle cfgA envA emptyCache reqPlain none).response := by
  have h := C4_cache_key_amended "/a.txt" optsP "p" cfgA envA emptyCache emptyCache
    reqPlain none "/other" rfl (by decide) rfl
  exact ⟨h.1, h.2.1, h.2.2.1, h.2.2.2.1, h.2.2.2.2⟩

/-- C5 counterexample: the served /www/name.exe response does carry a
content-disposition header, but its value has no closing double quote, so it
differs from the value the claim states. -/
theorem C5_exe_disposition_counterexample :
    (handle cfgA envExe emptyCache reqExe none).response.map
        (fun w => lookupHeader w.headers "content-disposition") =
      some (some "attachment; filename=\"name.exe") ∧
    ("attachment; filename=\"name.exe" : String) ≠ "attachment; filename=\"name.exe\"" := by
  refine ⟨by decide, by decide⟩

/-- C5 as amended: the content-disposition header is appended exactly when
the resolved filename ends with .exe or .EXE in exactly those cases (a
mixed-case extension such as .Exe gets no header), and its value is
attachment; filename=, an opening double quote and the basename, with no
closing quote - both in withDisposition itself and in the full fresh header
bag the handler serves. -/
theorem C5_exe_disposition_amended (f : String) (hs : List (String × String))
    (cfg : Config) (env : Env) (opts : Option ReqOpts) (st : Stat)
    (h : lookupHeader hs "content-disposition" = none) :
    (lookupHeader (withDisposition f hs) "content-disposition" =
      (if endsWithStr f ".EXE" || endsWithStr f ".exe" then
        some ("attachment; filename=\"" ++ baseName f)
      else none)) ∧
    (endsWithStr "/www/a.Exe" ".exe" = false ∧ endsWithStr "/www/a.Exe" ".EXE" = false ∧
     lookupHeader (withDisposition "/www/a.Exe" hs) "content-disposition" = none) ∧
    lookupHeader (freshHeaders cfg env opts f st) "content-disposition" =
      (if endsWithStr f ".EXE" || endsWithStr f ".exe" then
        some ("attachment; filename=\"" ++ baseName f)
      else none) := by
  refine ⟨lookupHeader_withDisposition_cd f hs h, ⟨by decide, by decide, ?_⟩, ?_⟩
  · rw [lookupHeader_withDisposition_cd _ _ h]
    decide
  · rw [freshHeaders]
    exact lookupHeader_withDisposition_cd _ _
      (lookupHeader_buildHeaders_contentDisposition _ _ _ _ _ _)

/-- Witness for C5 as amended, at the filename /www/name.exe. -/
theorem C5_exe_disposition_amended_witness :
    lookupHeader ([] : List (String × String)) "content-disposition" = none ∧
    lookupHeader (withDisposition "/www/name.exe" []) "content-disposition" =
      (if endsWithStr "/www/name.exe" ".EXE" || endsWithStr "/www/name.exe" ".exe" then
        some ("attachment; filename=\"" ++ baseName "/www/name.exe")
      else none) ∧
    lookupHeader (withDisposition "/www/a.Exe" []) "content-disposition" = none ∧
    lookupHeader (freshHeaders cfgA envExe none "/www/name.exe" statExe) "content-disposition" =
      (if endsWithStr "/www/name.exe" ".EXE" || endsWithStr "/www/name.exe" ".exe" then
        some ("attachment; filename=\"" ++ baseName "/www/name.exe")
      else none) := by
  have h := C5_exe_disposition_amended "/www/name.exe" [] cfgA envExe none statExe (by decide)
  exact ⟨by decide, h.1, h.2.1.2.2, h.2.2⟩

/-- C6 counterexample: caching is on, the store holds an entry for
/gone.txt, the filesystem has nothing under the root, and the request is not
conditional. No configured root yields an existing file, yet the handler
returns true and writes a 200 from the cache, against the claim's
exactly-when characterisation. -/
theorem C6_decline_counterexample :
    resolve envEmpty.stat cfgCache.roots (requestPathname reqGone) = .ok none ∧
    (handle cfgCache envEmpty storeGone reqGone none).result = .ok true ∧
    (handle cfgCache envEmpty storeGone reqGone none).response ≠ none := by
  refine ⟨by decide, by decide, by decide⟩

/-- C6 as amended: the handler returns false exactly when the method is
neither GET nor HEAD, or when the pathname is clean, the cache did not answer
the request, and resolution yields nothing or a directory; it writes no
response when it returns false, and has written one whenever it returns
true. -/
theorem C6_decline_amended (cfg : Config) (env : Env) (store : Cache) (req : Request)
    (opts : Option ReqOpts) :
    ((handle cfg env store req opts).result = .ok false ↔
      (req.method != "GET" && req.method != "HEAD") = true ∨
      ((req.method != "GET" && req.method != "HEAD") = false ∧
       containsDotDot (requestPathname req) = false ∧
       cacheLookup cfg store req (cacheKeyOf opts (stripQuery req.url)) = none ∧
       (resolve env.stat cfg.roots (requestPathname req) = .ok none ∨
        (∃ f : String, ∃ st : Stat,
          resolve env.stat cfg.roots (requestPathname req) = .ok (some (f, st)) ∧
          st.isDirectory = true)))) ∧
    ((handle cfg env store req opts).result = .ok false →
      (handle cfg env store req opts).response = none) ∧
    ((handle cfg env store req opts).result = .ok true →
      (handle cfg env store req opts).response ≠ none) := by
  cases hm : (req.method != "GET" && req.method != "HEAD") with
  | true =>
    rw [handle_bad_method _ _ _ _ _ hm]
    refine ⟨?_, ?_, ?_⟩ <;> simp [hm]
  | false =>
    cases hp : containsDotDot (requestPathname req) with
    | true =>
      rw [handle_forbidden _ _ _ _ _ hm hp]
      refine ⟨?_, ?_, ?_⟩ <;> simp [hm, hp]
    | false =>
      cases hc : cacheLookup cfg store req (cacheKeyOf opts (stripQuery req.url)) with
      | some hit =>
        rw [handle_cacheHit _ _ _ _ _ _ hm hp hc]
        refine ⟨?_, ?_, ?_⟩ <;> simp [hm, hp, hc]
      | none =>
        rw [handle_cacheMiss _ _ _ _ _ hm hp hc]
        cases hres : resolve env.stat cfg.roots (requestPathname req) with
        | error c =>
          rw [serveFresh_error _ _ _ _ _ _ _ _ hres]
          refine ⟨?_, ?_, ?_⟩ <;> simp [hm, hp, hc, hres]
        | ok o =>
          cases o with
          | none =>
            rw [serveFresh_notFound _ _ _ _ _ _ _ hres]
            refine ⟨?_, ?_, ?_⟩ <;> simp [hm, hp, hc, hres]
          | some pr =>
            obtain ⟨f, st⟩ := pr
            cases hd : st.isDirectory with
            | true =>
              rw [serveFresh_directory _ _ _ _ _ _ _ _ _ hres hd]
              refine ⟨?_, ?_, ?_⟩
              · constructor
                · intro _
                  exact Or.inr ⟨rfl, rfl, rfl, Or.inr ⟨f, st, rfl, hd⟩⟩
                · intro _
                  rfl
              · simp
              · simp
            | false =>
              rw [serveFresh_file _ _ _ _ _ _ _ _ _ hres hd]
              refine ⟨?_, ?_, ?_⟩ <;> simp [hm, hp, hc, hres, hd]

/-- Witness for C6 as amended: /missing.txt against an empty filesystem is
declined with no response written. -/
theorem C6_decline_amended_witness :
    (handle cfgA envEmpty emptyCache reqMissing none).result = .ok false ∧
    (handle cfgA envEmpty emptyCache reqMissing none).response = none := by
  have h := C6_decline_amended cfgA envEmpty emptyCache reqMissing none
  have hres : (handle cfgA envEmpty emptyCache reqMissing none).result = .ok false :=
    h.1.mpr (Or.inr ⟨by decide, by decide, by decide, Or.inl (by decide)⟩)
  exact ⟨hres, h.2.1 hres⟩

/-- C9 counterexample: clearCache with a key and an options object lacking
cachePrefix. The claim predicts deletion at the bare key /a.txt; the code
leaves /a.txt in place and instead deletes undefined/a.txt. -/
theorem C9_clear_cache_counterexample :
    clearCache (some "/a.txt") (some optsNoPfx) storeOld "/a.txt" = some entryOld ∧
    storeUndef "undefined/a.txt" = some entryOld ∧
    clearCache (some "/a.txt") (some optsNoPfx) storeUndef "undefined/a.txt" = none := by
  refine ⟨by decide, by decide, by decide⟩

/-- C9 as amended: clearCache with a non-empty key deletes exactly the entry
at cacheKeyOf opts key - key itself with no options object, otherwise
String(opts.cachePrefix) prepended - leaving every other entry unchanged;
without a key it empties the whole store; and after the clear, a request
whose cache key is the cleared key is answered exactly as with an empty
cache, never from the removed entry. -/
theorem C9_clear_cache_amended (key : String) (opts : Option ReqOpts) (store : Cache)
    (j : String) (cfg : Config) (env : Env) (req : Request) (opts2 : Option ReqOpts)
    (hk : key ≠ "")
    (hj : j ≠ cacheKeyOf opts key)
    (hreq : cacheKeyOf opts2 (stripQuery req.url) = cacheKeyOf opts key) :
    clearCache (some key) opts store (cacheKeyOf opts key) = none ∧
    clearCache (some key) opts store j = store j ∧
    clearCache none opts store j = none ∧
    (handle cfg env (clearCache (some key) opts store) req opts2).response =
      (handle cfg env emptyCache req opts2).response := by
  have hc : ∀ i, clearCache (some key) opts store i =
      if i = cacheKeyOf opts key then none else store i := by
    intro i
    rw [clearCache]
    simp [hk]
  refine ⟨?_, ?_, rfl, ?_⟩
  · rw [hc]; simp
  · rw [hc]; simp [hj]
  · apply (handle_store_local cfg env req opts2 _ emptyCache ?_).1
    rw [hc, hreq]
    simp [emptyCache]

/-- Witness for C9 as amended, clearing /a.txt with no options object. -/
theorem C9_clear_cache_amended_witness :
    clearCache (some "/a.txt") none storeOld (cacheKeyOf none "/a.txt") = none ∧
    clearCache (some "/a.txt") none storeOld "/other" = storeOld "/other" ∧
    clearCache none none storeOld "/other" = none ∧
    (handle cfgCache envA (clearCache (some "/a.txt") none storeOld) reqPlain none).response =
      (handle cfgCache envA emptyCache reqPlain none).response := by
  have h := C9_clear_cache_amended "/a.txt" none storeOld "/other" cfgCache envA reqPlain none
    (by decide) (by decide) (by decide)
  exact ⟨h.1, h.2.1, h.2.2.1, h.2.2.2⟩

end SL
